import Mathlib

/-!
Verification of the control-plane task dispatch (master/admin_task_sender.go),
the data-node space manager (datanode/space_manager.go) and the data-node
extent release hook (DataNode.releaseExtent) of the repository.

The Go source is embedded shallowly:

* Stateful code becomes explicit state passing.  Go maps become association
  lists (`mapGet` / `mapPut` / `mapDel` follow Go map semantics; iteration
  order over a Go map is unspecified, so theorems quantify over an arbitrary
  snapshot list).
* Calls into packages that are not part of the studied sources (`proto`
  task predicates, the connection pool, the wire transport, the tiny-extent
  store) are modelled from the specification; each such definition carries a
  doc comment starting with `Modelled from the spec:`.
* Network effects of the dispatcher are recorded in an explicit event trace
  (`SendEvent`), with an oracle (`NetOracle`) deciding the success of each
  connection acquisition, packet write and packet read, mirroring the order
  of operations in the Go source.
-/

/-! ## Task model (master side)

The `proto.AdminTask` structure and its predicates live in the `proto`
package, outside the studied sources; the fields below are the ones the
dispatcher reads or writes. -/

structure AdminTask where
  id : String
  opCode : Nat
  status : Nat
  sendCount : Nat
  sendTime : Int
  deriving DecidableEq, Repr

/-- Modelled from the spec: opcode of the data-node heartbeat probe
(`proto.OpDataNodeHeartbeat`, not under src/). The concrete numeral is
arbitrary; only distinctness of opcodes matters. -/
def OpDataNodeHeartbeat : Nat := 11

/-- Modelled from the spec: opcode of the meta-node heartbeat probe
(`proto.OpMetaNodeHeartbeat`, not under src/). -/
def OpMetaNodeHeartbeat : Nat := 12

/-- Modelled from the spec: an urgent-class opcode (create data partition). -/
def OpCreateDataPartition : Nat := 5

/-- Modelled from the spec: an urgent-class opcode (load data partition). -/
def OpLoadDataPartition : Nat := 6

/-- Modelled from the spec: an urgent-class opcode (update meta partition). -/
def OpUpdateMetaPartition : Nat := 7

/-- Modelled from the spec: an urgent-class opcode (offline data partition). -/
def OpOfflineDataPartition : Nat := 8

/-- Modelled from the spec: a normal (fire-and-forget) opcode, delete data
partition. -/
def OpDeleteDataPartition : Nat := 9

/-- Modelled from the spec: the `pending` task status. -/
def TaskPending : Nat := 2

/-- Modelled from the spec: the `running` task status
(`proto.TaskRunning`). -/
def TaskRunning : Nat := 3

/-- Modelled from the spec: resend interval of a running task. -/
def ResendInterval : Int := 6

/-- Modelled from the spec: the task-level timeout. -/
def TaskTimeOutInterval : Int := 100

/-- Modelled from the spec: the maximal number of send attempts
(`MaxSends`). -/
def MaxSendCount : Nat := 5

/-- Modelled from the spec: `proto.AdminTask.IsHeartbeatTask` — the task is
a heartbeat probe (meta-node or data-node heartbeat opcode). -/
def IsHeartbeatTask (t : AdminTask) : Bool :=
  t.opCode == OpDataNodeHeartbeat || t.opCode == OpMetaNodeHeartbeat

/-- Modelled from the spec: `proto.AdminTask.IsUrgentTask` — the urgent
opcode class (create / load / update-meta-partition / offline). -/
def IsUrgentTask (t : AdminTask) : Bool :=
  t.opCode == OpCreateDataPartition || t.opCode == OpLoadDataPartition ||
  t.opCode == OpUpdateMetaPartition || t.opCode == OpOfflineDataPartition

/-- Modelled from the spec: `proto.AdminTask.CheckTaskNeedSend`
(*needs_send*): pending, or running and the resend interval has elapsed
since `send_time`. -/
def CheckTaskNeedSend (now : Int) (t : AdminTask) : Bool :=
  t.status == TaskPending ||
    (t.status == TaskRunning && decide (ResendInterval ≤ now - t.sendTime))

/-- Modelled from the spec: `proto.AdminTask.CheckTaskTimeOut`
(*timed_out*): `send_count ≥ max_sends`, or sent at least once and the task
timeout has elapsed since `send_time`. -/
def CheckTaskTimeOut (now : Int) (t : AdminTask) : Bool :=
  decide (MaxSendCount ≤ t.sendCount) ||
    (decide (0 < t.sendTime) && decide (TaskTimeOutInterval ≤ now - t.sendTime))

/-- Maximal number of tasks handled per dispatch tick
(`MaxTaskLen` in admin_task_sender.go). -/
def MaxTaskLen : Nat := 30

/-- Marking performed inside `getNeedDealTask` on heartbeat and urgent tasks
right after they are appended to the batch:
`t.SendTime = time.Now().Unix(); t.SendCount++`. -/
def markTask (now : Int) (t : AdminTask) : AdminTask :=
  { t with sendTime := now, sendCount := t.sendCount + 1 }

/-- First loop of `getNeedDealTask` (admin_task_sender.go:232-238): collect
every heartbeat task that needs sending, marking each one in the registry.
Returns the updated registry snapshot and the tasks appended by this loop.
The Go batch holds pointers, so an appended entry shows the marking; the
model appends the marked value. -/
def phaseA (now : Int) : List AdminTask → List AdminTask × List AdminTask
  | [] => ([], [])
  | t :: rest =>
    let r := phaseA now rest
    if IsHeartbeatTask t && CheckTaskNeedSend now t then
      (markTask now t :: r.1, markTask now t :: r.2)
    else
      (t :: r.1, r.2)

/-- Second loop of `getNeedDealTask` (admin_task_sender.go:240-246): collect
every urgent task that needs sending, marking each one. -/
def phaseB (now : Int) : List AdminTask → List AdminTask × List AdminTask
  | [] => ([], [])
  | t :: rest =>
    let r := phaseB now rest
    if IsUrgentTask t && CheckTaskNeedSend now t then
      (markTask now t :: r.1, markTask now t :: r.2)
    else
      (t :: r.1, r.2)

/-- Third loop of `getNeedDealTask` (admin_task_sender.go:247-254): append
normal tasks that need sending onto the batch accumulated so far, breaking
as soon as the total batch length exceeds `MaxTaskLen`; the length check
runs after the conditional append, on every iteration. Normal tasks are not
marked here. -/
def phaseC (now : Int) : List AdminTask → List AdminTask → List AdminTask
  | batch, [] => batch
  | batch, t :: rest =>
    let batch2 :=
      if !IsHeartbeatTask t && !IsUrgentTask t && CheckTaskNeedSend now t then
        batch ++ [t]
      else
        batch
    if MaxTaskLen < batch2.length then batch2 else phaseC now batch2 rest

/-- `AdminTaskSender.getNeedDealTask` (admin_task_sender.go:226-256): the
assembled send batch for one tick, and the registry snapshot after the
marking done by the two priority loops. `taskMap` is a snapshot of the
`TaskMap` values in iteration order. -/
def getNeedDealTask (now : Int) (taskMap : List AdminTask) :
    List AdminTask × List AdminTask :=
  (phaseC now
      ((phaseA now taskMap).2 ++ (phaseB now (phaseA now taskMap).1).2)
      (phaseB now (phaseA now taskMap).1).1,
   (phaseB now (phaseA now taskMap).1).1)

/-! ## Dispatch of one batch -/

/-- `AdminTaskSender.updateTaskInfo` (admin_task_sender.go:141-148):
`SendCount++` always; on `connSuccess` additionally `SendTime = now` and
`Status = TaskRunning`. -/
def updateTaskInfo (now : Int) (connSuccess : Bool) (task : AdminTask) :
    AdminTask :=
  if connSuccess then
    { task with sendCount := task.sendCount + 1, sendTime := now,
                status := TaskRunning }
  else
    { task with sendCount := task.sendCount + 1 }

/-- Modelled from the spec: the success or failure of each transport
operation (connection pool `GetConnect`, `Packet.WriteToConn`,
`Packet.ReadFromConn` — all external to src/), indexed by the number of
operations of that kind already attempted. -/
structure NetOracle where
  connOk : Nat → Bool
  writeOk : Nat → Bool
  readOk : Nat → Bool

/-- Observable transport events of the dispatch loop, in program order. -/
inductive SendEvent where
  | getConn (ok : Bool)
  | writePacket (taskId : String) (ok : Bool)
  | readPacket (taskId : String) (ok : Bool)
  | putConn (forceClose : Bool)
  | specialWarn
  deriving DecidableEq, Repr

/-- Result of one `sendAdminTask` attempt: the (possibly updated) task, the
events on the connection, whether the attempt succeeded, and the next
write/read oracle indices. -/
structure SendAttempt where
  task : AdminTask
  events : List SendEvent
  ok : Bool
  wNext : Nat
  rNext : Nat
  deriving Repr

/-- `AdminTaskSender.sendAdminTask` (admin_task_sender.go:163-178): build
the packet (serialization is modelled as total — its failure path returns
before any connection operation), `WriteToConn`, then `ReadFromConn`; on
success of both, `updateTaskInfo(task, true)`. Note that the read happens
on every send, although the file's own header comment and the data-node
`Post` handler make fire-and-forget commands reply-less. -/
def sendAdminTask (o : NetOracle) (now : Int) (wIdx rIdx : Nat)
    (task : AdminTask) : SendAttempt :=
  if o.writeOk wIdx then
    if o.readOk rIdx then
      { task := updateTaskInfo now true task,
        events := [SendEvent.writePacket task.id true,
                   SendEvent.readPacket task.id true],
        ok := true, wNext := wIdx + 1, rNext := rIdx + 1 }
    else
      { task := task,
        events := [SendEvent.writePacket task.id true,
                   SendEvent.readPacket task.id false],
        ok := false, wNext := wIdx + 1, rNext := rIdx + 1 }
  else
    { task := task,
      events := [SendEvent.writePacket task.id false],
      ok := false, wNext := wIdx + 1, rNext := rIdx }

/-- `AdminTaskSender.sendTasks` (admin_task_sender.go:121-139). For each
task of the batch in order: acquire a connection (`connOk cIdx`); on
failure emit the special-key warning, force-close, `updateTaskInfo(task,
false)` and break out of the batch; otherwise run `sendAdminTask`; on its
failure force-close, `updateTaskInfo(task, true)` and continue; on success
return the connection to the pool. Returns the updated batch tasks and the
event trace. -/
def sendTasks (o : NetOracle) (now : Int) :
    Nat → Nat → Nat → List AdminTask → List AdminTask × List SendEvent
  | _, _, _, [] => ([], [])
  | cIdx, wIdx, rIdx, task :: rest =>
    if o.connOk cIdx then
      let a := sendAdminTask o now wIdx rIdx task
      if a.ok then
        let rs := sendTasks o now (cIdx + 1) a.wNext a.rNext rest
        (a.task :: rs.1,
         SendEvent.getConn true :: a.events ++ SendEvent.putConn false :: rs.2)
      else
        let rs := sendTasks o now (cIdx + 1) a.wNext a.rNext rest
        (updateTaskInfo now true task :: rs.1,
         SendEvent.getConn true :: a.events ++ SendEvent.putConn true :: rs.2)
    else
      (updateTaskInfo now false task :: rest,
       [SendEvent.getConn false, SendEvent.specialWarn,
        SendEvent.putConn true])

/-- Discriminator for connection-acquisition events. -/
def isGetConnEvent : SendEvent → Bool
  | SendEvent.getConn _ => true
  | _ => false

/-- Discriminator for packet-write events. -/
def isWritePacketEvent : SendEvent → Bool
  | SendEvent.writePacket _ _ => true
  | _ => false

/-- Discriminator for packet-read events. -/
def isReadPacketEvent : SendEvent → Bool
  | SendEvent.readPacket _ _ => true
  | _ => false

/-! ## Timeout eviction -/

/-- `AdminTaskSender.getNeedDeleteTasks` (admin_task_sender.go:94-110):
collect the timed-out tasks; alongside, record the ids for which the
operator-facing `Warn` fires — exactly the collected tasks with
`SendTime > 0` (the unconditional `log.LogWarnf` is not an operator
warning and is not modelled). -/
def getNeedDeleteTasks (now : Int) :
    List AdminTask → List AdminTask × List String
  | [] => ([], [])
  | t :: rest =>
    let r := getNeedDeleteTasks now rest
    if CheckTaskTimeOut now t then
      if 0 < t.sendTime then (t :: r.1, t.id :: r.2) else (t :: r.1, r.2)
    else
      r

/-- `AdminTaskSender.DelTask` (admin_task_sender.go:203-214): if the id is
present, `delete(TaskMap, t.ID)`; otherwise return unchanged. -/
def DelTask (m : List AdminTask) (t : AdminTask) : List AdminTask :=
  if m.any (fun u => u.id == t.id) then
    m.filter (fun u => !(u.id == t.id))
  else
    m

/-- `AdminTaskSender.doDeleteTasks` (admin_task_sender.go:85-91): evict
every task returned by `getNeedDeleteTasks`. Returns the registry after
eviction and the ids warned about. -/
def doDeleteTasks (now : Int) (m : List AdminTask) :
    List AdminTask × List String :=
  ((getNeedDeleteTasks now m).1.foldl DelTask m, (getNeedDeleteTasks now m).2)

/-! ## Space manager (data-node side) -/

/-- The fields of `Disk` the space manager's placement logic reads. -/
structure Disk where
  path : String
  available : Nat
  deriving DecidableEq, Repr

/-- A data-partition handle (`DataPartition` is an interface in the source;
these are the fields the space manager logic observes). -/
structure DataPartition where
  id : Nat
  size : Nat
  volName : String
  diskPath : String
  deriving DecidableEq, Repr

/-- Go map lookup on an association list (`m[k]`, absent key giving the
zero value, modelled as `none`). -/
def mapGet {α β : Type} [BEq α] (m : List (α × β)) (k : α) : Option β :=
  match m with
  | [] => none
  | e :: rest => if e.1 == k then some e.2 else mapGet rest k

/-- Go map assignment `m[k] = v`. -/
def mapPut {α β : Type} [BEq α] (m : List (α × β)) (k : α) (v : β) :
    List (α × β) :=
  (k, v) :: m.filter (fun e => !(e.1 == k))

/-- Go map deletion `delete(m, k)`. -/
def mapDel {α β : Type} [BEq α] (m : List (α × β)) (k : α) :
    List (α × β) :=
  m.filter (fun e => !(e.1 == k))

/-- The `spaceManager` state read by the partition lifecycle operations:
the disk map and the insertion-ordered disk list, the partition directory,
and the round-robin cursor. -/
structure SpaceManager where
  disks : List (String × Disk)
  diskList : List String
  partitions : List (Nat × DataPartition)
  chooseIndex : Nat
  deriving DecidableEq, Repr

/-- `spaceManager.getMinPartitionCntDisk` (space_manager.go:209-222):
wrap the cursor when it has run past the list, read the disk at the
cursor, advance the cursor. An empty disk list makes the Go code panic on
the index; the model returns `none` there. -/
def getMinPartitionCntDisk (space : SpaceManager) :
    SpaceManager × Option Disk :=
  let idx := if space.diskList.length ≤ space.chooseIndex then 0
             else space.chooseIndex
  match space.diskList.get? idx with
  | none => ({ space with chooseIndex := idx + 1 }, none)
  | some path => ({ space with chooseIndex := idx + 1 },
                  mapGet space.disks path)

/-- The disk-selection loop of `CreatePartition` (space_manager.go:301-308):
up to `fuel = len(space.disks)` rounds, call the selector and skip any disk
whose `Available` is below the requested size. Also counts the selector
invocations. A `none` from the selector is the state where the Go code
panics; the model stops with no disk. -/
def selectDisk (size : Nat) : Nat → SpaceManager →
    SpaceManager × Option Disk × Nat
  | 0, space => (space, none, 0)
  | fuel + 1, space =>
    let g := getMinPartitionCntDisk space
    match g.2 with
    | none => (g.1, none, 1)
    | some d =>
      if d.available < size then
        let r := selectDisk size fuel g.1
        (r.1, r.2.1, r.2.2 + 1)
      else
        (g.1, some d, 1)

/-- The fields of `proto.CreateDataPartitionRequest` used by
`CreatePartition`. -/
structure CreateDataPartitionRequest where
  partitionId : Nat
  volumeId : String
  partitionSize : Nat
  deriving DecidableEq, Repr

/-- The fields of `dataPartitionCfg` that flow into the created handle. -/
structure dataPartitionCfg where
  partitionId : Nat
  volName : String
  partitionSize : Nat
  deriving DecidableEq, Repr

/-- Modelled from the spec: the external partition factory
`CreateDataPartition(dpCfg, disk)` (not under src/) builds a partition
handle on the chosen disk; its id is the configured partition id. The
factory's error path is not modelled (the spec treats construction as an
external collaborator). -/
def CreateDataPartitionFactory (cfg : dataPartitionCfg) (disk : Disk) :
    DataPartition :=
  { id := cfg.partitionId, size := cfg.partitionSize,
    volName := cfg.volName, diskPath := disk.path }

/-- `ErrNoDiskForCreatePartition` — the error returned when no disk fits. -/
def ErrNoDiskForCreatePartition : String := "no disk for create partition"

/-- `spaceManager.CreatePartition` (space_manager.go:280-321): if the id is
already in the directory return the existing handle; otherwise run the
disk-selection loop; with no fitting disk fail with
`ErrNoDiskForCreatePartition`; otherwise build the partition and insert it
under its id. -/
def CreatePartition (space : SpaceManager)
    (request : CreateDataPartitionRequest) :
    SpaceManager × Except String DataPartition :=
  match mapGet space.partitions request.partitionId with
  | some dp => (space, Except.ok dp)
  | none =>
    let sel := selectDisk request.partitionSize space.disks.length space
    match sel.2.1 with
    | none => (sel.1, Except.error ErrNoDiskForCreatePartition)
    | some disk =>
      let dp := CreateDataPartitionFactory
        { partitionId := request.partitionId, volName := request.volumeId,
          partitionSize := request.partitionSize } disk
      ({ sel.1 with partitions := mapPut sel.1.partitions dp.id dp },
       Except.ok dp)

/-- `spaceManager.GetPartition` (space_manager.go:265-271): directory
lookup; a missing id yields the nil handle, modelled as `none`. -/
def GetPartition (space : SpaceManager) (partitionId : Nat) :
    Option DataPartition :=
  mapGet space.partitions partitionId

/-- `spaceManager.DeletePartition` (space_manager.go:323-334): look up; a
nil handle is a no-op; otherwise remove the id from the directory (the
subsequent `Stop`, `DetachDataPartition` and `os.RemoveAll` act on the
partition and the file system, outside this state). -/
def DeletePartition (space : SpaceManager) (dpId : Nat) : SpaceManager :=
  match GetPartition space dpId with
  | none => space
  | some _ => { space with partitions := mapDel space.partitions dpId }

/-! ## Extent release hook (data-node side) -/

/-- The fields of a `repl.Packet` read by `releaseExtent`. The Boolean
fields model the external predicates `isLeaderPacket`, `isWriteOperation`,
`Packet.IsForwardPkg` and `Packet.IsErrPacket` (none under src/), and
`hasObject` models `pkg.Object != nil`. -/
structure Packet where
  extentID : Nat
  extentMode : Nat
  isRelase : Nat
  isLeader : Bool
  isWrite : Bool
  isForward : Bool
  isErr : Bool
  hasObject : Bool
  deriving DecidableEq, Repr

/-- Modelled from the spec: `proto.TinyExtentMode`. -/
def TinyExtentMode : Nat := 1

/-- Modelled from the spec: the value stored into the atomic `IsRelase`
flag once the extent has been returned to the store
(`HasReturnToStore`, not under src/). -/
def HasReturnToStore : Nat := 1

/-- Modelled from the spec: first id of the pooled tiny-extent range
(`storage` package, not under src/). -/
def TinyExtentStartID : Nat := 1

/-- Modelled from the spec: number of pooled tiny extents. -/
def TinyExtentCount : Nat := 64

/-- Modelled from the spec: `storage.IsTinyExtent` — membership of the
pooled tiny-extent id range. -/
def IsTinyExtent (extentID : Nat) : Bool :=
  decide (TinyExtentStartID ≤ extentID) &&
    decide (extentID < TinyExtentStartID + TinyExtentCount)

/-- The two free queues of the tiny-extent store observed by the hook. -/
structure ExtentStore where
  avail : List Nat
  unavail : List Nat
  deriving DecidableEq, Repr

/-- Modelled from the spec: `store.PutTinyExtentToAvaliCh` enqueues the id
onto the available queue. -/
def PutTinyExtentToAvaliCh (st : ExtentStore) (extentID : Nat) :
    ExtentStore :=
  { st with avail := st.avail ++ [extentID] }

/-- Modelled from the spec: `store.PutTinyExtentToUnavaliCh` enqueues the
id onto the unavailable queue. -/
def PutTinyExtentToUnavaliCh (st : ExtentStore) (extentID : Nat) :
    ExtentStore :=
  { st with unavail := st.unavail ++ [extentID] }

/-- `DataNode.releaseExtent` (src/unnamed/part_000:39-57): guard on nil
packet, tiny-extent id range, positive id and the release flag; guard on
tiny mode, leader, write and forwarded; guard on a nil back-reference;
then enqueue onto the unavailable queue on an error packet and the
available queue otherwise, and set the release flag. Returns the updated
packet and store. -/
def releaseExtent (pkg : Option Packet) (st : ExtentStore) :
    Option Packet × ExtentStore :=
  match pkg with
  | none => (none, st)
  | some p =>
    if !IsTinyExtent p.extentID || p.extentID == 0 ||
        p.isRelase == HasReturnToStore then
      (some p, st)
    else if !(p.extentMode == TinyExtentMode) || !p.isLeader ||
        !p.isWrite || !p.isForward then
      (some p, st)
    else if !p.hasObject then
      (some p, st)
    else
      (some { p with isRelase := HasReturnToStore },
       if p.isErr then PutTinyExtentToUnavaliCh st p.extentID
       else PutTinyExtentToAvaliCh st p.extentID)

/-- Dispatch priority class of a task as assembled by `getNeedDealTask`:
heartbeat before urgent before normal. -/
def taskRank (t : AdminTask) : Nat :=
  if IsHeartbeatTask t then 0 else if IsUrgentTask t then 1 else 2

/-! ## Concrete instances used by witnesses and counterexamples -/

/-- A heartbeat task that needs sending, with a numeric id. -/
def mkHeartbeatTask (n : Nat) : AdminTask :=
  { id := toString n, opCode := OpDataNodeHeartbeat, status := TaskPending,
    sendCount := 0, sendTime := 0 }

/-- A normal (fire-and-forget) task that needs sending. -/
def normalTaskN0 : AdminTask :=
  { id := "n0", opCode := OpDeleteDataPartition, status := TaskPending,
    sendCount := 0, sendTime := 0 }

/-- Registry snapshot with one pending normal task followed by 31 pending
heartbeat tasks. -/
def bigTickMap : List AdminTask :=
  normalTaskN0 :: (List.range 31).map mkHeartbeatTask

/-- Oracle on which every connection acquisition fails. -/
def oracleConnFail : NetOracle :=
  { connOk := fun _ => false, writeOk := fun _ => true,
    readOk := fun _ => true }

/-- Oracle on which every transport operation succeeds. -/
def oracleAllOk : NetOracle :=
  { connOk := fun _ => true, writeOk := fun _ => true,
    readOk := fun _ => true }

/-- Oracle modelling a peer that accepts the write but never sends a reply
(as the data-node `Post` handler arranges for fire-and-forget master
commands by clearing `NeedReply`): every read fails. -/
def oracleNoReply : NetOracle :=
  { connOk := fun _ => true, writeOk := fun _ => true,
    readOk := fun _ => false }

/-- Three pending normal tasks N1, N2, N3. -/
def taskN1 : AdminTask :=
  { id := "N1", opCode := OpDeleteDataPartition, status := TaskPending,
    sendCount := 0, sendTime := 0 }

/-- Second pending normal task. -/
def taskN2 : AdminTask :=
  { id := "N2", opCode := OpDeleteDataPartition, status := TaskPending,
    sendCount := 0, sendTime := 0 }

/-- Third pending normal task. -/
def taskN3 : AdminTask :=
  { id := "N3", opCode := OpDeleteDataPartition, status := TaskPending,
    sendCount := 0, sendTime := 0 }

/-- A packet meeting every release condition, reporting no error. -/
def releasePkt : Packet :=
  { extentID := 3, extentMode := TinyExtentMode, isRelase := 0,
    isLeader := true, isWrite := true, isForward := true, isErr := false,
    hasObject := true }

/-- An empty pair of tiny-extent free queues. -/
def emptyStore : ExtentStore := { avail := [], unavail := [] }

/-- A partition handle with id 7 living on disk `d1`. -/
def partition7 : DataPartition :=
  { id := 7, size := 80, volName := "v", diskPath := "d1" }

/-- A manager whose only disk has 10 bytes available and whose directory
already holds partition 7. -/
def managerWith7 : SpaceManager :=
  { disks := [("d1", { path := "d1", available := 10 })],
    diskList := ["d1"], partitions := [(7, partition7)], chooseIndex := 0 }

/-- The same manager with an empty partition directory. -/
def managerEmptyDir : SpaceManager :=
  { disks := [("d1", { path := "d1", available := 10 })],
    diskList := ["d1"], partitions := [], chooseIndex := 0 }

/-- A request for partition 7 of size 100 — larger than any disk. -/
def request7 : CreateDataPartitionRequest :=
  { partitionId := 7, volumeId := "v", partitionSize := 100 }

/-- A manager with no disks whose directory holds partition 5. -/
def managerWith5 : SpaceManager :=
  { disks := [], diskList := [], partitions := [(5, partition7)],
    chooseIndex := 0 }

/-- A running task whose `send_time` lies two task-timeouts in the past at
instant 201. -/
def timedOutTask : AdminTask :=
  { id := "x", opCode := OpDeleteDataPartition, status := TaskRunning,
    sendCount := 1, sendTime := 1 }

/-- A running task sent recently, not timed out at instant 201. -/
def freshTask : AdminTask :=
  { id := "y", opCode := OpDeleteDataPartition, status := TaskRunning,
    sendCount := 1, sendTime := 190 }

/-! ## Helper lemmas -/

theorem mapGet_mapPut_self {α β : Type} [BEq α] [LawfulBEq α]
    (m : List (α × β)) (k : α) (v : β) : mapGet (mapPut m k v) k = some v := by
  simp [mapGet, mapPut]

theorem mapGet_mapDel_self {α β : Type} [BEq α] (m : List (α × β)) (k : α) :
    mapGet (mapDel m k) k = none := by
  induction m with
  | nil => rfl
  | cons e rest ih =>
    simp only [mapDel, List.filter_cons] at *
    by_cases he : (e.1 == k) = true
    · simpa [he] using ih
    · have he' : (e.1 == k) = false := by
        cases h : (e.1 == k) <;> simp_all
      simpa [he', mapGet] using ih

/-! ## Claim theorems: extent release hook -/

/-- Claim C3: on a packet meeting every release condition (tiny id range,
release flag unset, tiny extent mode, leader, write, forwarded, non-nil
back-reference), the hook enqueues the extent-id exactly once — onto the
unavailable queue when the packet reports an error and onto the available
queue otherwise — and a second call on the resulting packet and store
returns without any further effect. -/
theorem releaseExtent_doubleRelease (p : Packet) (st : ExtentStore)
    (h1 : IsTinyExtent p.extentID = true)
    (h2 : ¬ p.isRelase = HasReturnToStore)
    (h3 : p.extentMode = TinyExtentMode)
    (h4 : p.isLeader = true) (h5 : p.isWrite = true)
    (h6 : p.isForward = true) (h7 : p.hasObject = true) :
    releaseExtent (some p) st =
      (some { p with isRelase := HasReturnToStore },
       if p.isErr then PutTinyExtentToUnavaliCh st p.extentID
       else PutTinyExtentToAvaliCh st p.extentID) ∧
    releaseExtent (releaseExtent (some p) st).1 (releaseExtent (some p) st).2 =
      releaseExtent (some p) st := by
  have hid0 : (p.extentID == 0) = false := by
    have h1' := h1
    simp [IsTinyExtent, TinyExtentStartID, TinyExtentCount] at h1'
    simp only [beq_eq_false_iff_ne, ne_eq]
    omega
  have hrel : (p.isRelase == HasReturnToStore) = false :=
    beq_eq_false_iff_ne.mpr h2
  have hfst : releaseExtent (some p) st =
      (some { p with isRelase := HasReturnToStore },
       if p.isErr then PutTinyExtentToUnavaliCh st p.extentID
       else PutTinyExtentToAvaliCh st p.extentID) := by
    simp [releaseExtent, h1, hid0, hrel, h3, h4, h5, h6, h7]
  refine ⟨hfst, ?_⟩
  rw [hfst]
  simp [releaseExtent]

/-- Witness for C3 at a concrete packet and empty store. -/
theorem releaseExtent_doubleRelease_witness :
    releaseExtent (some releasePkt) emptyStore =
      (some { releasePkt with isRelase := HasReturnToStore },
       if releasePkt.isErr then
         PutTinyExtentToUnavaliCh emptyStore releasePkt.extentID
       else PutTinyExtentToAvaliCh emptyStore releasePkt.extentID) ∧
    releaseExtent (releaseExtent (some releasePkt) emptyStore).1
        (releaseExtent (some releasePkt) emptyStore).2 =
      releaseExtent (some releasePkt) emptyStore :=
  releaseExtent_doubleRelease releasePkt emptyStore rfl (by decide)
    rfl rfl rfl rfl rfl

/-- Claim C10: on a nil packet, an out-of-range or zero extent-id, or a nil
partition back-reference, the hook returns with the packet and both queues
unchanged — no enqueue, no release flag — even when the remaining release
conditions hold, so the hook never dereferences a nil back-reference. -/
theorem releaseExtent_totalGuard (pkg : Option Packet) (st : ExtentStore)
    (h : pkg = none ∨ ∃ p, pkg = some p ∧
      (IsTinyExtent p.extentID = false ∨ p.extentID = 0 ∨
        p.hasObject = false)) :
    releaseExtent pkg st = (pkg, st) := by
  rcases h with h | ⟨p, rfl, hc⟩
  · subst h; rfl
  · rcases hc with hc | hc | hc
    · simp [releaseExtent, hc]
    · simp [releaseExtent, hc]
    · simp [releaseExtent, hc]

/-- Witness for C10 at the nil packet. -/
theorem releaseExtent_totalGuard_witness :
    releaseExtent none emptyStore = (none, emptyStore) :=
  releaseExtent_totalGuard none emptyStore (Or.inl rfl)

/-! ## Claim theorems: partition directory -/

/-- Claim C7: after `DeletePartition id`, `GetPartition id` observes the
nil handle; and `DeletePartition` on an id absent from the directory is a
no-op that changes no state. -/
theorem DeletePartition_observed_absent (space : SpaceManager) (dpId : Nat) :
    GetPartition (DeletePartition space dpId) dpId = none ∧
    (GetPartition space dpId = none → DeletePartition space dpId = space) := by
  constructor
  · cases hg : GetPartition space dpId with
    | none => simp [DeletePartition, hg]
    | some dp =>
      have hd : DeletePartition space dpId =
          { space with partitions := mapDel space.partitions dpId } := by
        simp [DeletePartition, hg]
      rw [hd]
      simp [GetPartition, mapGet_mapDel_self]
  · intro h
    simp [DeletePartition, h]

/-- Witness for C7: deleting the present id 5 makes it absent; deleting the
absent id 9 changes nothing. -/
theorem DeletePartition_observed_absent_witness :
    GetPartition (DeletePartition managerWith5 5) 5 = none ∧
    DeletePartition managerWith5 9 = managerWith5 :=
  ⟨(DeletePartition_observed_absent managerWith5 5).1,
   (DeletePartition_observed_absent managerWith5 9).2 rfl⟩

/-- Claim C4: a `CreatePartition` whose partition id is already in the
directory returns the existing handle with the whole state (directory and
round-robin cursor) unchanged and no disk selected; and a repeated
`CreatePartition` after any successful one returns the same handle and
changes nothing. -/
theorem CreatePartition_idempotent (space : SpaceManager)
    (request : CreateDataPartitionRequest) :
    (∀ dp, mapGet space.partitions request.partitionId = some dp →
      CreatePartition space request = (space, Except.ok dp)) ∧
    (∀ s1 d1, CreatePartition space request = (s1, Except.ok d1) →
      CreatePartition s1 request = (s1, Except.ok d1)) := by
  constructor
  · intro dp h
    simp [CreatePartition, h]
  · intro s1 d1 h
    cases hm : mapGet space.partitions request.partitionId with
    | some dp =>
      simp only [CreatePartition, hm] at h
      injection h with ha hb
      injection hb with hc
      subst ha; subst hc
      simp [CreatePartition, hm]
    | none =>
      simp only [CreatePartition, hm] at h
      cases hsel :
          (selectDisk request.partitionSize space.disks.length space).2.1 with
      | none =>
        rw [hsel] at h
        simp at h
      | some disk =>
        rw [hsel] at h
        simp only at h
        injection h with ha hb
        injection hb with hc
        subst ha; subst hc
        simp [CreatePartition, CreateDataPartitionFactory, mapGet_mapPut_self]

/-- Witness for C4: creating the already-present partition 7 returns the
stored handle and the unchanged manager. -/
theorem CreatePartition_idempotent_witness :
    CreatePartition managerWith7 request7 =
      (managerWith7, Except.ok partition7) :=
  (CreatePartition_idempotent managerWith7 request7).1 partition7 rfl

/-! ## Claim theorems: dispatch transport behaviour -/

/-- Claim C1 (code evaluation): the fire-and-forget send path
`sendAdminTask` performs an inline `ReadFromConn` after the packet write —
the trace of a send over a healthy connection contains a read event — and
when the peer never replies (as the data-node `Post` handler arranges for
master commands by clearing `NeedReply`), the send fails even though the
write succeeded. This contradicts the claim (and the sender's own header
comment) that fire-and-forget dispatch only writes. -/
theorem sendAdminTask_readsInline :
    (sendAdminTask oracleAllOk 0 0 0 taskN1).events =
      [SendEvent.writePacket "N1" true, SendEvent.readPacket "N1" true] ∧
    ((sendAdminTask oracleAllOk 0 0 0 taskN1).events.filter
        isReadPacketEvent).length = 1 ∧
    (sendAdminTask oracleNoReply 0 0 0 taskN1).events =
      [SendEvent.writePacket "N1" true, SendEvent.readPacket "N1" false] ∧
    (sendAdminTask oracleNoReply 0 0 0 taskN1).ok = false :=
  ⟨rfl, rfl, rfl, rfl⟩

/-- Claim C5: when the very first connection acquisition of a tick fails,
the batch processing stops at once: the trace is exactly one failed
connection-get, the special-key warning and a force-close — one get
attempt, zero packet writes — the first task only gains `send_count + 1`
(its `send_time` and `status` untouched), and the remaining batch tasks
are returned unchanged. -/
theorem sendTasks_connFailBreak (o : NetOracle) (now : Int)
    (t : AdminTask) (rest : List AdminTask) (h : o.connOk 0 = false) :
    sendTasks o now 0 0 0 (t :: rest) =
      ({ t with sendCount := t.sendCount + 1 } :: rest,
       [SendEvent.getConn false, SendEvent.specialWarn,
        SendEvent.putConn true]) ∧
    ((sendTasks o now 0 0 0 (t :: rest)).2.filter isGetConnEvent).length = 1 ∧
    ((sendTasks o now 0 0 0 (t :: rest)).2.filter
        isWritePacketEvent).length = 0 ∧
    SendEvent.specialWarn ∈ (sendTasks o now 0 0 0 (t :: rest)).2 := by
  have he : sendTasks o now 0 0 0 (t :: rest) =
      ({ t with sendCount := t.sendCount + 1 } :: rest,
       [SendEvent.getConn false, SendEvent.specialWarn,
        SendEvent.putConn true]) := by
    simp [sendTasks, h, updateTaskInfo]
  refine ⟨he, ?_, ?_, ?_⟩ <;>
    rw [he] <;> simp [isGetConnEvent, isWritePacketEvent]

/-- Witness for C5: three pending normal tasks and an always-failing
connection pool. -/
theorem sendTasks_connFailBreak_witness :
    sendTasks oracleConnFail 0 0 0 0 [taskN1, taskN2, taskN3] =
      ({ taskN1 with sendCount := taskN1.sendCount + 1 } :: [taskN2, taskN3],
       [SendEvent.getConn false, SendEvent.specialWarn,
        SendEvent.putConn true]) ∧
    ((sendTasks oracleConnFail 0 0 0 0 [taskN1, taskN2, taskN3]).2.filter
        isGetConnEvent).length = 1 ∧
    ((sendTasks oracleConnFail 0 0 0 0 [taskN1, taskN2, taskN3]).2.filter
        isWritePacketEvent).length = 0 ∧
    SendEvent.specialWarn ∈
      (sendTasks oracleConnFail 0 0 0 0 [taskN1, taskN2, taskN3]).2 :=
  sendTasks_connFailBreak oracleConnFail 0 taskN1 [taskN2, taskN3] rfl

/-! ## Claim theorems: partition placement failure -/

theorem selectDisk_count_le (size : Nat) :
    ∀ fuel space, (selectDisk size fuel space).2.2 ≤ fuel := by
  intro fuel
  induction fuel with
  | zero => intro space; simp [selectDisk]
  | succ n ih =>
    intro space
    simp only [selectDisk]
    cases hg : (getMinPartitionCntDisk space).2 with
    | none => simp [hg]
    | some d =>
      by_cases hav : d.available < size
      · simp only [hg, hav, if_pos]
        exact Nat.succ_le_succ (ih _)
      · simp [hg, hav]

theorem selectDisk_noFit (size : Nat) :
    ∀ fuel (space : SpaceManager), space.diskList ≠ [] →
    (∀ p ∈ space.diskList,
      ∃ d, mapGet space.disks p = some d ∧ d.available < size) →
    (selectDisk size fuel space).2.1 = none ∧
    (selectDisk size fuel space).1.diskList = space.diskList ∧
    (selectDisk size fuel space).1.disks = space.disks ∧
    (selectDisk size fuel space).1.partitions = space.partitions := by
  intro fuel
  induction fuel with
  | zero => intro space _ _; exact ⟨rfl, rfl, rfl, rfl⟩
  | succ n ih =>
    intro space hne hfit
    have hlenpos : 0 < space.diskList.length := List.length_pos.mpr hne
    have hidx : (if space.diskList.length ≤ space.chooseIndex then 0
        else space.chooseIndex) < space.diskList.length := by
      by_cases hcase : space.diskList.length ≤ space.chooseIndex
      · simpa [hcase] using hlenpos
      · simpa [hcase] using Nat.lt_of_not_le hcase
    have hget := List.get?_eq_get hidx
    set idx := if space.diskList.length ≤ space.chooseIndex then 0
        else space.chooseIndex with hidxdef
    set path := space.diskList.get ⟨idx, hidx⟩ with hpathdef
    have hmem : path ∈ space.diskList := List.get_mem _ _ _
    obtain ⟨d, hd, hlt⟩ := hfit path hmem
    have hgeq : getMinPartitionCntDisk space =
        ({ space with chooseIndex := idx + 1 }, some d) := by
      simp only [getMinPartitionCntDisk, ← hidxdef]
      rw [hget]
      simp [hd]
    have hfields :
        ({ space with chooseIndex := idx + 1 } : SpaceManager).diskList =
          space.diskList := rfl
    have ihres := ih { space with chooseIndex := idx + 1 }
      (by rw [hfields]; exact hne) (by rw [hfields]; exact hfit)
    have heq : selectDisk size (n + 1) space =
        ((selectDisk size n { space with chooseIndex := idx + 1 }).1,
         (selectDisk size n { space with chooseIndex := idx + 1 }).2.1,
         (selectDisk size n { space with chooseIndex := idx + 1 }).2.2 + 1) := by
      simp [selectDisk, hgeq, hlt]
    rw [heq]
    exact ⟨ihres.1, ihres.2.1, ihres.2.2.1, ihres.2.2.2⟩

/-- Counterexample for C6 as stated: on a manager whose single registered
disk has only 10 bytes available (all disks below the requested 100) but
whose directory already holds the requested partition id, `CreatePartition`
does not fail with `ErrNoDiskForCreatePartition` — it returns the existing
handle. -/
theorem CreatePartition_noFit_counterexample :
    (managerWith7.disks.all
      (fun e => decide (e.2.available < request7.partitionSize))) = true ∧
    CreatePartition managerWith7 request7 =
      (managerWith7, Except.ok partition7) ∧
    (CreatePartition managerWith7 request7).2 ≠
      Except.error ErrNoDiskForCreatePartition := by
  refine ⟨by decide, rfl, ?_⟩
  intro hc
  rw [show CreatePartition managerWith7 request7 =
      (managerWith7, Except.ok partition7) from rfl] at hc
  exact Except.noConfusion hc

/-- Claim C6 (amended with a fresh partition id): when the requested id is
not yet in the directory and every registered disk has available space
strictly below the requested size, `CreatePartition` fails with
`ErrNoDiskForCreatePartition`, inserts nothing into the directory, and the
selection loop invokes the selector at most `len(disks)` times. -/
theorem CreatePartition_noFit (space : SpaceManager)
    (request : CreateDataPartitionRequest)
    (hnew : mapGet space.partitions request.partitionId = none)
    (hlen : space.diskList.length = space.disks.length)
    (hfit : ∀ p ∈ space.diskList,
      ∃ d, mapGet space.disks p = some d ∧
        d.available < request.partitionSize) :
    (CreatePartition space request).2 =
      Except.error ErrNoDiskForCreatePartition ∧
    (CreatePartition space request).1.partitions = space.partitions ∧
    (selectDisk request.partitionSize space.disks.length space).2.2 ≤
      space.disks.length := by
  refine ⟨?_, ?_, selectDisk_count_le _ _ _⟩ <;>
  · by_cases hnil : space.diskList = []
    · have hzero : space.disks.length = 0 := by
        rw [← hlen, hnil]; rfl
      simp [CreatePartition, hnew, hzero, selectDisk]
    · obtain ⟨hsel, _, _, hparts⟩ :=
        selectDisk_noFit request.partitionSize space.disks.length space
          hnil hfit
      simp [CreatePartition, hnew, hsel, hparts]

/-- Witness for C6 (amended): same single small disk, empty directory. -/
theorem CreatePartition_noFit_witness :
    (CreatePartition managerEmptyDir request7).2 =
      Except.error ErrNoDiskForCreatePartition ∧
    (CreatePartition managerEmptyDir request7).1.partitions =
      managerEmptyDir.partitions ∧
    (selectDisk request7.partitionSize managerEmptyDir.disks.length
        managerEmptyDir).2.2 ≤ managerEmptyDir.disks.length :=
  CreatePartition_noFit managerEmptyDir request7 rfl rfl
    (by
      intro p hp
      simp [managerEmptyDir] at hp
      subst hp
      exact ⟨{ path := "d1", available := 10 }, rfl, by decide⟩)

/-! ## Claim theorems: batch assembly priority and size -/

theorem IsHeartbeatTask_markTask (now : Int) (t : AdminTask) :
    IsHeartbeatTask (markTask now t) = IsHeartbeatTask t := rfl

theorem IsUrgentTask_markTask (now : Int) (t : AdminTask) :
    IsUrgentTask (markTask now t) = IsUrgentTask t := rfl

theorem urgent_not_heartbeat (t : AdminTask) (h : IsUrgentTask t = true) :
    IsHeartbeatTask t = false := by
  simp only [IsUrgentTask, OpCreateDataPartition, OpLoadDataPartition,
    OpUpdateMetaPartition, OpOfflineDataPartition, Bool.or_eq_true,
    beq_iff_eq] at h
  simp only [IsHeartbeatTask, OpDataNodeHeartbeat, OpMetaNodeHeartbeat,
    Bool.or_eq_false_iff, beq_eq_false_iff_ne, ne_eq]
  omega

theorem phaseA_batch_heartbeat (now : Int) :
    ∀ m : List AdminTask, ∀ t ∈ (phaseA now m).2, IsHeartbeatTask t = true := by
  intro m
  induction m with
  | nil => intro t ht; simp [phaseA] at ht
  | cons a rest ih =>
    intro t ht
    by_cases hc : (IsHeartbeatTask a && CheckTaskNeedSend now a) = true
    · simp only [phaseA, hc, if_pos] at ht
      rcases List.mem_cons.mp ht with h | h
      · subst h
        rw [IsHeartbeatTask_markTask]
        have hc2 := hc
        simp only [Bool.and_eq_true] at hc2
        exact hc2.1
      · exact ih t h
    · simp only [phaseA, hc, if_neg, Bool.false_eq_true,
        not_false_eq_true] at ht
      exact ih t ht

theorem phaseB_batch_urgent (now : Int) :
    ∀ m : List AdminTask, ∀ t ∈ (phaseB now m).2, IsUrgentTask t = true := by
  intro m
  induction m with
  | nil => intro t ht; simp [phaseB] at ht
  | cons a rest ih =>
    intro t ht
    by_cases hc : (IsUrgentTask a && CheckTaskNeedSend now a) = true
    · simp only [phaseB, hc, if_pos] at ht
      rcases List.mem_cons.mp ht with h | h
      · subst h
        rw [IsUrgentTask_markTask]
        have hc2 := hc
        simp only [Bool.and_eq_true] at hc2
        exact hc2.1
      · exact ih t h
    · simp only [phaseB, hc, if_neg, Bool.false_eq_true,
        not_false_eq_true] at ht
      exact ih t ht

theorem phaseC_nil (now : Int) (batch : List AdminTask) :
    phaseC now batch [] = batch := rfl

theorem phaseC_cons (now : Int) (batch : List AdminTask) (a : AdminTask)
    (rest : List AdminTask) :
    phaseC now batch (a :: rest) =
      if MaxTaskLen <
          (if !IsHeartbeatTask a && !IsUrgentTask a &&
              CheckTaskNeedSend now a then batch ++ [a] else batch).length
      then
        (if !IsHeartbeatTask a && !IsUrgentTask a &&
            CheckTaskNeedSend now a then batch ++ [a] else batch)
      else
        phaseC now
          (if !IsHeartbeatTask a && !IsUrgentTask a &&
              CheckTaskNeedSend now a then batch ++ [a] else batch) rest := rfl

theorem phaseC_extends (now : Int) :
    ∀ (l batch : List AdminTask), ∃ s, phaseC now batch l = batch ++ s ∧
      ∀ t ∈ s, IsHeartbeatTask t = false ∧ IsUrgentTask t = false := by
  intro l
  induction l with
  | nil => intro batch; exact ⟨[], by simp [phaseC_nil], by simp⟩
  | cons a rest ih =>
    intro batch
    by_cases hc :
        (!IsHeartbeatTask a && !IsUrgentTask a && CheckTaskNeedSend now a) =
          true
    · have hcls : IsHeartbeatTask a = false ∧ IsUrgentTask a = false := by
        have hc2 := hc
        simp only [Bool.and_eq_true, Bool.not_eq_true'] at hc2
        exact ⟨hc2.1.1, hc2.1.2⟩
      by_cases hlen : MaxTaskLen < (batch ++ [a]).length
      · refine ⟨[a], ?_, ?_⟩
        · rw [phaseC_cons, if_pos hc, if_pos hlen]
        · intro t ht
          simp only [List.mem_singleton] at ht
          subst ht
          exact hcls
      · obtain ⟨s, hs, hscls⟩ := ih (batch ++ [a])
        refine ⟨a :: s, ?_, ?_⟩
        · rw [phaseC_cons, if_pos hc, if_neg hlen, hs, List.append_assoc]
          rfl
        · intro t ht
          rcases List.mem_cons.mp ht with h | h
          · subst h; exact hcls
          · exact hscls t h
    · by_cases hlen : MaxTaskLen < batch.length
      · refine ⟨[], ?_, by simp⟩
        rw [phaseC_cons, if_neg hc, if_pos hlen]
        simp
      · obtain ⟨s, hs, hscls⟩ := ih batch
        refine ⟨s, ?_, hscls⟩
        rw [phaseC_cons, if_neg hc, if_neg hlen, hs]

theorem taskRank_of_heartbeat (t : AdminTask)
    (h : IsHeartbeatTask t = true) : taskRank t = 0 := by
  simp [taskRank, h]

theorem taskRank_of_urgent (t : AdminTask)
    (h : IsUrgentTask t = true) : taskRank t = 1 := by
  simp [taskRank, urgent_not_heartbeat t h, h]

theorem taskRank_of_normal (t : AdminTask)
    (h1 : IsHeartbeatTask t = false) (h2 : IsUrgentTask t = false) :
    taskRank t = 2 := by
  simp [taskRank, h1, h2]

theorem pairwise_rank_le_of_const (l : List AdminTask) (c : Nat)
    (h : ∀ t ∈ l, taskRank t = c) :
    l.Pairwise (fun a b => taskRank a ≤ taskRank b) := by
  induction l with
  | nil => exact List.Pairwise.nil
  | cons a rest ih =>
    refine List.Pairwise.cons ?_ (ih fun t ht => h t (List.mem_cons_of_mem a ht))
    intro b hb
    rw [h a (List.mem_cons_self a rest), h b (List.mem_cons_of_mem a hb)]

/-- Claim C2: the batch assembled by `getNeedDealTask` is ordered by
dispatch class — every heartbeat task precedes every urgent task, and
every urgent task precedes every normal task (ranks 0 < 1 < 2 are
monotone along the batch); `sendTasks` then writes the batch in list
order, so in any tick with a ready heartbeat task the heartbeat write
precedes every non-heartbeat write. -/
theorem getNeedDealTask_priority (now : Int) (m : List AdminTask) :
    ((getNeedDealTask now m).1).Pairwise
      (fun a b => taskRank a ≤ taskRank b) := by
  obtain ⟨s, hs, hcls⟩ := phaseC_extends now
    (phaseB now (phaseA now m).1).1
    ((phaseA now m).2 ++ (phaseB now (phaseA now m).1).2)
  have hbatch : (getNeedDealTask now m).1 =
      ((phaseA now m).2 ++ (phaseB now (phaseA now m).1).2) ++ s := hs
  rw [hbatch]
  have hA : ∀ t ∈ (phaseA now m).2, taskRank t = 0 := fun t ht =>
    taskRank_of_heartbeat t (phaseA_batch_heartbeat now m t ht)
  have hB : ∀ t ∈ (phaseB now (phaseA now m).1).2, taskRank t = 1 :=
    fun t ht => taskRank_of_urgent t (phaseB_batch_urgent now _ t ht)
  have hS : ∀ t ∈ s, taskRank t = 2 := fun t ht =>
    taskRank_of_normal t (hcls t ht).1 (hcls t ht).2
  rw [List.pairwise_append]
  refine ⟨?_, pairwise_rank_le_of_const s 2 hS, ?_⟩
  · rw [List.pairwise_append]
    refine ⟨pairwise_rank_le_of_const _ 0 hA,
      pairwise_rank_le_of_const _ 1 hB, ?_⟩
    intro a ha b hb
    rw [hA a ha, hB b hb]
    omega
  · intro a ha b hb
    rw [hS b hb]
    rcases List.mem_append.mp ha with h | h
    · rw [hA a h]; omega
    · rw [hB a h]; omega

theorem phaseC_length_le (now : Int) :
    ∀ (l batch : List AdminTask),
      (phaseC now batch l).length ≤
        max (batch.length + 1) (MaxTaskLen + 1) := by
  intro l
  induction l with
  | nil =>
    intro batch
    rw [phaseC_nil, le_max_iff]
    left
    omega
  | cons a rest ih =>
    intro batch
    by_cases hc :
        (!IsHeartbeatTask a && !IsUrgentTask a && CheckTaskNeedSend now a) =
          true
    · by_cases hlen : MaxTaskLen < (batch ++ [a]).length
      · rw [phaseC_cons, if_pos hc, if_pos hlen, le_max_iff]
        left
        simp
      · rw [phaseC_cons, if_pos hc, if_neg hlen]
        have h1 := ih (batch ++ [a])
        have h2 : (batch ++ [a]).length = batch.length + 1 := by simp
        have h3 : ¬ MaxTaskLen < batch.length + 1 := by
          rw [← h2]; exact hlen
        rw [le_max_iff] at h1 ⊢
        rcases h1 with h1 | h1
        · right
          rw [h2] at h1
          omega
        · right; exact h1
    · by_cases hlen : MaxTaskLen < batch.length
      · rw [phaseC_cons, if_neg hc, if_pos hlen, le_max_iff]
        left
        omega
      · rw [phaseC_cons, if_neg hc, if_neg hlen]
        exact ih batch

/-- Claim C9 (amended): normal tasks stop being appended as soon as the
batch length exceeds `MaxTaskLen`, the check running after each conditional
append; consequently the batch never exceeds the larger of `MaxTaskLen + 1`
and one more than the heartbeat-and-urgent prefix — when the two priority
phases already exceed the limit, at most one further normal task is
appended before the loop breaks. -/
theorem getNeedDealTask_maxBatch (now : Int) (m : List AdminTask) :
    ((getNeedDealTask now m).1).length ≤
      max ((phaseA now m).2.length +
        (phaseB now (phaseA now m).1).2.length + 1) (MaxTaskLen + 1) := by
  have h := phaseC_length_le now (phaseB now (phaseA now m).1).1
    ((phaseA now m).2 ++ (phaseB now (phaseA now m).1).2)
  simpa [getNeedDealTask, List.length_append] using h

/-- Counterexample for C9 as stated: with one pending normal task and 31
pending heartbeat tasks, the heartbeat phase alone brings the batch to 31
(already above `MaxTaskLen = 30`), yet the normal task is still appended —
the batch has 32 entries whose first 31 are heartbeats and whose last is
the normal task. -/
theorem getNeedDealTask_maxBatch_counterexample :
    ((getNeedDealTask 0 bigTickMap).1).length = MaxTaskLen + 2 ∧
    (((getNeedDealTask 0 bigTickMap).1).take (MaxTaskLen + 1)).all
      IsHeartbeatTask = true ∧
    ((getNeedDealTask 0 bigTickMap).1).getLast? = some normalTaskN0 := by
  refine ⟨?_, ?_, ?_⟩ <;> rfl

/-! ## Claim theorems: timeout eviction -/

theorem getNeedDeleteTasks_fst (now : Int) :
    ∀ m : List AdminTask,
      (getNeedDeleteTasks now m).1 = m.filter (CheckTaskTimeOut now) := by
  intro m
  induction m with
  | nil => rfl
  | cons t rest ih =>
    by_cases hc : CheckTaskTimeOut now t = true
    · by_cases hw : 0 < t.sendTime
      · simp [getNeedDeleteTasks, hc, hw, List.filter_cons, ih]
      · simp [getNeedDeleteTasks, hc, hw, List.filter_cons, ih]
    · simp [getNeedDeleteTasks, hc, List.filter_cons, ih]

theorem getNeedDeleteTasks_snd (now : Int) :
    ∀ m : List AdminTask,
      (getNeedDeleteTasks now m).2 =
        ((m.filter (CheckTaskTimeOut now)).filter
          (fun t => decide (0 < t.sendTime))).map (fun t => t.id) := by
  intro m
  induction m with
  | nil => rfl
  | cons t rest ih =>
    by_cases hc : CheckTaskTimeOut now t = true
    · by_cases hw : 0 < t.sendTime
      · simp [getNeedDeleteTasks, hc, hw, List.filter_cons, ih]
      · simp [getNeedDeleteTasks, hc, hw, List.filter_cons, ih]
    · simp [getNeedDeleteTasks, hc, List.filter_cons, ih]

theorem DelTask_eq_filter (m : List AdminTask) (t : AdminTask) :
    DelTask m t = m.filter (fun u => !(u.id == t.id)) := by
  unfold DelTask
  by_cases h : m.any (fun u => u.id == t.id) = true
  · rw [if_pos h]
  · rw [if_neg h]
    have hall : ∀ u ∈ m, ¬(u.id == t.id) = true :=
      List.any_eq_false.mp (Bool.eq_false_iff.mpr h ▸ rfl)
    symm
    rw [List.filter_eq_self]
    intro u hu
    simp [hall u hu]

theorem foldl_DelTask_eq (dts : List AdminTask) :
    ∀ m : List AdminTask,
      dts.foldl DelTask m =
        m.filter (fun u => !dts.any (fun v => u.id == v.id)) := by
  induction dts with
  | nil =>
    intro m
    simp
  | cons t ts ih =>
    intro m
    rw [List.foldl_cons, ih (DelTask m t), DelTask_eq_filter,
      List.filter_filter]
    apply List.filter_congr
    intro u hu
    rw [List.any_cons, Bool.not_or]
    cases hx : (u.id == t.id) <;>
      cases hy : ts.any (fun v => u.id == v.id) <;> simp [hx, hy]

theorem task_id_injective (m : List AdminTask)
    (hids : (m.map (fun t => t.id)).Nodup) :
    ∀ t ∈ m, ∀ u ∈ m, t.id = u.id → t = u := by
  intro t ht u hu heq
  exact List.inj_on_of_nodup_map hids ht hu heq

/-- Claim C8: on a tick, the eviction pass deletes from the registry
exactly the tasks satisfying *timed_out* (so every timed-out task is
removed, never to be dispatched again, and nothing else is touched), and
the operator-facing warning fires exactly for the removed tasks that had
been sent at least once (`send_time > 0`). The procedure returns nothing,
so the timeout is surfaced to no caller. -/
theorem doDeleteTasks_evicts (now : Int) (m : List AdminTask)
    (hids : (m.map (fun t => t.id)).Nodup) :
    (doDeleteTasks now m).1 =
      m.filter (fun t => !CheckTaskTimeOut now t) ∧
    (doDeleteTasks now m).2 =
      ((m.filter (CheckTaskTimeOut now)).filter
        (fun t => decide (0 < t.sendTime))).map (fun t => t.id) := by
  constructor
  · show (getNeedDeleteTasks now m).1.foldl DelTask m = _
    rw [getNeedDeleteTasks_fst, foldl_DelTask_eq]
    apply List.filter_congr
    intro u hu
    have hany :
        ((m.filter (CheckTaskTimeOut now)).any (fun v => u.id == v.id)) =
          CheckTaskTimeOut now u := by
      by_cases hc : CheckTaskTimeOut now u = true
      · rw [hc]
        rw [List.any_eq_true]
        exact ⟨u, List.mem_filter.mpr ⟨hu, hc⟩, by simp⟩
      · have hcf : CheckTaskTimeOut now u = false := Bool.eq_false_iff.mpr hc
        rw [hcf]
        rw [← Bool.not_eq_true, List.any_eq_true]
        rintro ⟨v, hv, hbe⟩
        have hvm := List.mem_filter.mp hv
        have hide : u.id = v.id := by exact_mod_cast eq_of_beq hbe
        have huv : u = v := task_id_injective m hids u hu v hvm.1 hide
        rw [← huv] at hvm
        exact hc hvm.2
    rw [hany]
  · exact getNeedDeleteTasks_snd now m

/-- Witness for C8: at instant 201, a task sent at instant 1 (two
task-timeouts in the past) is evicted with a warning, while a recently
sent task stays. -/
theorem doDeleteTasks_evicts_witness :
    (doDeleteTasks 201 [timedOutTask, freshTask]).1 = [freshTask] ∧
    (doDeleteTasks 201 [timedOutTask, freshTask]).2 = ["x"] := by
  have h := doDeleteTasks_evicts 201 [timedOutTask, freshTask] (by decide)
  refine ⟨?_, ?_⟩
  · rw [h.1]; rfl
  · rw [h.2]; rfl
